import Mathlib

/-!
# Verification of the batch-management routes (`src/routes/batches.py`)

A shallow embedding of the batch CRUD / enrollment / archive routes of the
repository, with theorems settling the frozen claims about them.

Modelling conventions:
* The relational state is a `DBState`: the `Batch` rows, the `User` rows and
  the many-to-many `user_batches` association as a list of
  `(user_id, batch_id)` pairs.
* Each route handler becomes a pure function
  `DBState → request data → Except Err result`.  The implicit transaction
  boundary of the persistence layer is modelled by the `Except`: an `.ok`
  carries the committed new state, an `.error` commits nothing (the caller
  keeps the old state; `postState` makes this rollback explicit).
* Python `datetime.date` values become a `Date` structure ordered
  lexicographically; `datetime.utcnow()` timestamps and user ids are `Nat`
  parameters supplied by the environment.
* JSON request bodies are association lists `List (String × Option String)`;
  a key bound to `none` is JSON `null`.  (Fields whose values are never
  strings in the claims' scenarios are not modelled further.)
* Python string membership `pat in hay` becomes `strContains hay pat`
  (infix on the character list), and `str.strip()` becomes `String.trim`.
-/

/-- Error result of a handler: the `error_response(message, status)` pair. -/
structure Err where
  msg : String
  status : Nat
deriving DecidableEq, Repr

/-- `models.UserRole`. -/
inductive Role where
  | student
  | teacher
  | super_user
deriving DecidableEq, Repr

/-- Python `pat in hay` on strings: substring containment. -/
def strContains (hay pat : String) : Bool :=
  decide (pat.data <:+: hay.data)

/-- Python `s.strip()`: drop leading and trailing whitespace.  (A structural
re-implementation of `String.trim`, so that proofs can evaluate it.) -/
def strTrim (s : String) : String :=
  ⟨((s.data.dropWhile Char.isWhitespace).reverse.dropWhile Char.isWhitespace).reverse⟩

/-- Split a character list on a single separator character. -/
def splitOnChar (c : Char) : List Char → List (List Char)
  | [] => [[]]
  | x :: xs =>
    let r := splitOnChar c xs
    if x == c then [] :: r
    else
      match r with
      | [] => [[x]]
      | h :: t => (x :: h) :: t

/-- Fuelled worker for `strSplitOn` (fuel bounds the scan, keeping the
recursion structural so the kernel can evaluate it). -/
def splitOnStrAux (sep : List Char) : Nat → List Char → List Char → List (List Char)
  | 0, acc, l => [acc.reverse ++ l]
  | fuel + 1, acc, l =>
    if sep.isPrefixOf l then
      acc.reverse :: splitOnStrAux sep fuel [] (l.drop sep.length)
    else
      match l with
      | [] => [acc.reverse]
      | x :: xs => splitOnStrAux sep fuel (x :: acc) xs

/-- Python `s.split(sep)` for a non-empty separator (a structural
re-implementation of `String.splitOn`). -/
def strSplitOn (s sep : String) : List String :=
  if sep.data.isEmpty then [s]
  else (splitOnStrAux sep.data (s.data.length + 1) [] s.data).map (fun l => ⟨l⟩)

/-- The natural number denoted by a digit list. -/
def natOfDigits (l : List Char) : Nat :=
  l.foldl (fun n c => n * 10 + (c.toNat - 48)) 0

/-- Decidable equality for handler results. -/
instance {ε α : Type} [DecidableEq ε] [DecidableEq α] : DecidableEq (Except ε α) :=
  fun x y =>
    match x, y with
    | .ok a, .ok b =>
      if h : a = b then .isTrue (by rw [h])
      else .isFalse (by intro hc; injection hc; exact h (by assumption))
    | .error a, .error b =>
      if h : a = b then .isTrue (by rw [h])
      else .isFalse (by intro hc; injection hc; exact h (by assumption))
    | .ok _, .error _ => .isFalse (by intro hc; exact Except.noConfusion hc)
    | .error _, .ok _ => .isFalse (by intro hc; exact Except.noConfusion hc)

/-- A calendar date (`datetime.date`). -/
structure Date where
  year : Nat
  month : Nat
  day : Nat
deriving DecidableEq, Repr

/-- Python `date` comparison `a <= b`: lexicographic on (year, month, day). -/
def Date.le (a b : Date) : Bool :=
  a.year < b.year ||
    (a.year == b.year &&
      (a.month < b.month || (a.month == b.month && a.day ≤ b.day)))

/-- A `Batch` row.  `fee_amount` models the `Decimal` column (the claims never
exercise fractional amounts); `updated_at`/`archived_at` are abstract `Nat`
timestamps.  Columns no claim touches (`created_at`, ...) are omitted. -/
structure Batch where
  id : Nat
  name : String
  description : String
  subject : String
  start_date : Date
  end_date : Option Date
  fee_amount : Int
  max_students : Nat
  status : String
  is_active : Bool
  is_archived : Bool
  archived_at : Option Nat
  archived_by : Option Nat
  archive_reason : Option String
  updated_at : Nat
deriving DecidableEq, Repr

/-- A `User` row (students are users with `role = student`).  Profile columns
no claim touches (email, guardian contacts, ...) are represented by the three
name/phone fields. -/
structure User where
  id : Nat
  role : Role
  is_active : Bool
  is_archived : Bool
  archived_at : Option Nat
  archived_by : Option Nat
  archive_reason : Option String
  first_name : String
  last_name : String
  phoneNumber : String
deriving DecidableEq, Repr

/-- A `MonthlyExam` row. -/
structure MonthlyExam where
  id : Nat
  batch_id : Nat
  year : Int
  month : Int
deriving DecidableEq, Repr

/-- A `MonthlyRanking` row; `position` is a nullable integer column. -/
structure MonthlyRanking where
  id : Nat
  monthly_exam_id : Nat
  user_id : Nat
  position : Option Int
  is_final : Bool
deriving DecidableEq, Repr

/-- The relational state the routes read and write. -/
structure DBState where
  batches : List Batch
  users : List User
  enroll : List (Nat × Nat)
deriving DecidableEq, Repr

/-- `Batch.query.get(batch_id)`. -/
def getBatch (st : DBState) (batch_id : Nat) : Option Batch :=
  st.batches.find? (fun b => b.id == batch_id)

/-- Whether the association table holds the pair (`batch in student.batches`). -/
def enrolled (st : DBState) (user_id batch_id : Nat) : Bool :=
  st.enroll.contains (user_id, batch_id)

/-- `batch.students`: the users associated with the batch, in row order. -/
def batchStudents (st : DBState) (batch_id : Nat) : List User :=
  st.users.filter (fun u => enrolled st u.id batch_id)

/-- The committed state after a handler runs: an `.ok` commits its new state,
an `.error` rolls back, leaving the pre-state. -/
def postState (r : Except Err (DBState × Nat)) (st : DBState) : DBState :=
  match r with
  | .ok (st', _) => st'
  | .error _ => st

/-- Same rollback semantics for handlers that return no count. -/
def postState1 (r : Except Err DBState) (st : DBState) : DBState :=
  match r with
  | .ok st' => st'
  | .error _ => st

/-- The cascade provenance string `f"Archived with batch: {batch.name}"`. -/
def archiveMarker (batchName : String) : String :=
  "Archived with batch: " ++ batchName

/-- The condition under which `archive_batch`'s loop archives a member. -/
def shouldArchive (st : DBState) (batch_id : Nat) (s : User) : Bool :=
  enrolled st s.id batch_id && !s.is_archived && s.role == .student

/-- The archived version of a student produced by `archive_batch`'s loop. -/
def archStamp (now current_user : Nat) (batchName : String) (s : User) : User :=
  { s with is_archived := true, archived_at := some now,
           archived_by := some current_user,
           archive_reason := some (archiveMarker batchName) }

/-- The archived version of the batch row set by `archive_batch`. -/
def batchArchStamp (now current_user : Nat) (reason : String) (b : Batch) : Batch :=
  { b with is_archived := true, archived_at := some now,
           archived_by := some current_user, archive_reason := some reason }

/-- The restored version of the batch row set by `restore_batch`. -/
def batchClearStamp (b : Batch) : Batch :=
  { b with is_archived := false, archived_at := none,
           archived_by := none, archive_reason := none }

/-- `archive_batch` (`POST /batches/<id>/archive`): archive a batch and all its
students.  `reasonOpt` is `data.get('reason')`; `now` is `datetime.utcnow()`;
`current_user` the authenticated user's id.  Returns the committed state and
`archived_students_count`. -/
def archive_batch (st : DBState) (batch_id : Nat) (reasonOpt : Option String)
    (now current_user : Nat) : Except Err (DBState × Nat) :=
  match getBatch st batch_id with
  | none => .error ⟨"Batch not found", 404⟩
  | some batch =>
    if batch.is_archived then .error ⟨"Batch is already archived", 400⟩
    else
      let reason := reasonOpt.getD "Archived by teacher"
      let batch' := batchArchStamp now current_user reason batch
      let users' := st.users.map (fun s =>
        if shouldArchive st batch_id s then archStamp now current_user batch.name s
        else s)
      let count := (st.users.filter (shouldArchive st batch_id)).length
      .ok ({ st with
              batches := st.batches.map (fun b => if b.id == batch_id then batch' else b),
              users := users' }, count)

/-- The condition under which `restore_batch`'s loop restores a member: archived
with this batch per the provenance substring check
`student.archive_reason and f"Archived with batch: {batch.name}" in student.archive_reason`
(`batch.name` is the batch's *current* name). -/
def shouldRestore (st : DBState) (batch_id : Nat) (batchName : String) (s : User) : Bool :=
  enrolled st s.id batch_id && s.is_archived && s.role == .student &&
    (match s.archive_reason with
     | some r => !(r == "") && strContains r (archiveMarker batchName)
     | none => false)

/-- The restored version of a student produced by `restore_batch`'s loop. -/
def clearStamp (s : User) : User :=
  { s with is_archived := false, archived_at := none,
           archived_by := none, archive_reason := none }

/-- `restore_batch` (`POST /batches/<id>/restore`): restore an archived batch
and, when `restore_students` (default `True`), the students it cascaded to.
Returns the committed state and `restored_students_count`. -/
def restore_batch (st : DBState) (batch_id : Nat) (restoreOpt : Option Bool) :
    Except Err (DBState × Nat) :=
  match getBatch st batch_id with
  | none => .error ⟨"Batch not found", 404⟩
  | some batch =>
    if !batch.is_archived then .error ⟨"Batch is not archived", 400⟩
    else
      let restore_students := restoreOpt.getD true
      let batch' := batchClearStamp batch
      let users' :=
        if restore_students then
          st.users.map (fun s =>
            if shouldRestore st batch_id batch.name s then clearStamp s else s)
        else st.users
      let count :=
        if restore_students then
          (st.users.filter (shouldRestore st batch_id batch.name)).length
        else 0
      .ok ({ st with
              batches := st.batches.map (fun b => if b.id == batch_id then batch' else b),
              users := users' }, count)

/-- The request-body value bound to a key: `some v` when the key is present
(`none` inside for JSON `null`), `none` when absent. -/
def dataGet (data : List (String × Option String)) (k : String) : Option (Option String) :=
  data.lookup k

/-- Python truthiness of an optional string: `None` and `""` are falsy. -/
def truthy : Option String → Bool
  | some s => !(s == "")
  | none => false

/-- The `allowed_classes` enumeration. -/
def allowed_classes : List String :=
  ["Class 1", "Class 2", "Class 3", "Class 4", "Class 5",
   "Class 6", "Class 7", "Class 8", "Class 9", "Class 10",
   "HSC 1st Year", "HSC 2nd Year"]

/-- The `allowed_subjects` enumeration. -/
def allowed_subjects : List String :=
  ["Mathematics", "Higher Mathematics", "Physics", "Chemistry",
   "Biology", "English", "Bangla", "ICT", "General Science"]

/-- Models `datetime.strptime(s, '%Y-%m-%d').date()`: three dash-separated
digit groups, a plausible month and day.  (Unreachable from `update_batch`
because `updatable_fields` lists only `'name'`; the exact lenience of
`strptime` is therefore immaterial to every claim.) -/
def parse_date (s : String) : Option Date :=
  match splitOnChar '-' s.data with
  | [y, m, d] =>
    if !y.isEmpty && y.all Char.isDigit && !m.isEmpty && m.all Char.isDigit &&
        !d.isEmpty && d.all Char.isDigit then
      let mn := natOfDigits m
      let dn := natOfDigits d
      if 1 ≤ mn && mn ≤ 12 && 1 ≤ dn && dn ≤ 31 then
        some ⟨natOfDigits y, mn, dn⟩
      else none
    else none
  | _ => none

/-- Models `Decimal(str(v))` on a string value (integral amounts only;
unreachable from `update_batch` for the same reason as `parse_date`). -/
def parse_fee (s : String) : Option Int :=
  match s.data with
  | '-' :: rest =>
    if !rest.isEmpty && rest.all Char.isDigit then some (-(natOfDigits rest : Int))
    else none
  | l =>
    if !l.isEmpty && l.all Char.isDigit then some (natOfDigits l : Int)
    else none

/-- `create_batch` (`POST /batches`).  `today` is `date.today()`, `new_id` the
id the database assigns the new row. -/
def create_batch (st : DBState) (data : List (String × Option String))
    (today : Date) (new_id : Nat) : Except Err DBState :=
  if data.isEmpty then .error ⟨"Request data is required", 400⟩ else
  let missing := (["name", "class", "subject"].filter
    (fun f => !truthy ((dataGet data f).getD none)))
  if !missing.isEmpty then
    .error ⟨"Missing required fields: " ++ String.intercalate ", " missing, 400⟩
  else
  let class_name := strTrim (((dataGet data "class").getD none).getD "")
  if !(allowed_classes.contains class_name) then
    .error ⟨"Class must be one of: " ++ String.intercalate ", " allowed_classes, 400⟩
  else
  let subject := strTrim (((dataGet data "subject").getD none).getD "")
  if !(allowed_subjects.contains subject) then
    .error ⟨"Subject must be one of: " ++ String.intercalate ", " allowed_subjects, 400⟩
  else
  let nm := strTrim (((dataGet data "name").getD none).getD "")
  if (st.batches.find? (fun b => b.name == nm)).isSome then
    .error ⟨"Batch with this name already exists", 409⟩
  else
  let batch : Batch :=
    { id := new_id, name := nm, description := class_name ++ " - " ++ subject,
      subject := subject, start_date := today, end_date := none,
      fee_amount := 0, max_students := 50, status := "active",
      is_active := true, is_archived := false, archived_at := none,
      archived_by := none, archive_reason := none, updated_at := 0 }
  .ok { st with batches := st.batches ++ [batch] }

/-- `updatable_fields` in `update_batch`: the literal list in the source is
`['name']`, so the date/fee branches of the per-field loop are unreachable. -/
def updatable_fields : List String := ["name"]

/-- One iteration of `update_batch`'s `for field in updatable_fields` loop:
parse/validate dates and fee amounts, `setattr` everything else.  Only the
`setattr` branch with `field = "name"` is reachable (see `updatable_fields`). -/
def applyUpdatableField (data : List (String × Option String))
    (acc : Except Err Batch) (field : String) : Except Err Batch :=
  match acc with
  | .error e => .error e
  | .ok b =>
    match dataGet data field with
    | none => .ok b
    | some v =>
      if (field == "start_date" || field == "end_date") && truthy v then
        match parse_date (v.getD "") with
        | some d =>
          .ok (if field == "start_date" then { b with start_date := d }
               else { b with end_date := some d })
        | none => .error ⟨"Invalid " ++ field ++ " format. Use YYYY-MM-DD", 400⟩
      else if field == "fee_amount" && v.isSome then
        match parse_fee (v.getD "") with
        | some amt =>
          if amt < 0 then .error ⟨"Fee amount cannot be negative", 400⟩
          else .ok { b with fee_amount := amt }
        | none => .error ⟨"Invalid fee amount", 400⟩
      else
        match field, v with
        | "name", some nm => .ok { b with name := nm }
        | _, _ => .ok b

/-- The class/subject block of `update_batch`: validate against the
enumerations and rewrite `description` when both resolved values are truthy. -/
def classSubjectStep (batch : Batch) (data : List (String × Option String)) :
    Except Err Batch :=
  if (dataGet data "class").isSome || (dataGet data "subject").isSome then
    let current_class : Option String :=
      if strContains batch.description " - " then
        some ((strSplitOn batch.description " - ").headD "")
      else none
    let new_class : Option String :=
      match dataGet data "class" with
      | some v => v
      | none => current_class
    let new_subject : Option String :=
      match dataGet data "subject" with
      | some v => v
      | none => some batch.subject
    if truthy new_class && !(allowed_classes.contains (new_class.getD "")) then
      .error ⟨"Class must be one of: " ++ String.intercalate ", " allowed_classes, 400⟩
    else
      let step2 : Except Err Batch :=
        if truthy new_subject then
          if !(allowed_subjects.contains (new_subject.getD "")) then
            .error ⟨"Subject must be one of: " ++ String.intercalate ", " allowed_subjects, 400⟩
          else .ok { batch with subject := new_subject.getD "" }
        else .ok batch
      match step2 with
      | .error e => .error e
      | .ok b1 =>
        if truthy new_class && truthy new_subject then
          .ok { b1 with description := new_class.getD "" ++ " - " ++ new_subject.getD "" }
        else .ok b1
  else .ok batch

/-- `update_batch` (`PUT /batches/<id>`).  `now` is `datetime.utcnow()`. -/
def update_batch (st : DBState) (batch_id : Nat)
    (data : List (String × Option String)) (now : Nat) : Except Err DBState :=
  match getBatch st batch_id with
  | none => .error ⟨"Batch not found", 404⟩
  | some batch =>
    if data.isEmpty then .error ⟨"Request data is required", 400⟩ else
    let nameCheck : Except Err Unit :=
      match dataGet data "name" with
      | none => .ok ()
      | some none =>
        -- `data['name'].strip()` on `None` raises; the handler's `except`
        -- rolls back and returns a 500.
        .error ⟨"Failed to update batch: name is not a string", 500⟩
      | some (some nm) =>
        if !(strTrim nm == batch.name) then
          if (st.batches.find?
              (fun c => c.name == strTrim nm && !(c.id == batch_id))).isSome then
            .error ⟨"Batch with this name already exists", 409⟩
          else .ok ()
        else .ok ()
    match nameCheck with
    | .error e => .error e
    | .ok _ =>
      match classSubjectStep batch data with
      | .error e => .error e
      | .ok b2 =>
        match updatable_fields.foldl (applyUpdatableField data) (.ok b2) with
        | .error e => .error e
        | .ok b3 =>
          let bad : Bool :=
            match b3.end_date with
            | some ed => Date.le ed b3.start_date
            | none => false
          if bad then .error ⟨"End date must be after start date", 400⟩
          else
            let b4 := { b3 with updated_at := now }
            .ok { st with batches :=
                    st.batches.map (fun c => if c.id == batch_id then b4 else c) }

/-- `delete_batch` (`DELETE /batches/<id>`): hard delete, gated on the batch
having no active member students. -/
def delete_batch (st : DBState) (batch_id : Nat) : Except Err DBState :=
  match getBatch st batch_id with
  | none => .error ⟨"Batch not found", 404⟩
  | some _ =>
    let active_students := (batchStudents st batch_id).filter (fun s => s.is_active)
    if !active_students.isEmpty then
      .error ⟨"Cannot delete batch with " ++ toString active_students.length ++
              " active students. Please remove students first.", 400⟩
    else
      .ok { st with
            batches := st.batches.filter (fun b => !(b.id == batch_id)),
            enroll := st.enroll.filter (fun p => !(p.2 == batch_id)) }

/-- `add_student_to_batch` (`POST /batches/<id>/students`).  `sidOpt` is
`data.get('student_id')`; Python's `if not student_id` also rejects `0`. -/
def add_student_to_batch (st : DBState) (batch_id : Nat) (sidOpt : Option Nat) :
    Except Err DBState :=
  match getBatch st batch_id with
  | none => .error ⟨"Batch not found", 404⟩
  | some _ =>
    match sidOpt with
    | none => .error ⟨"Student ID is required", 400⟩
    | some sid =>
      if sid == 0 then .error ⟨"Student ID is required", 400⟩
      else
        match st.users.find?
            (fun u => u.id == sid && u.role == .student && u.is_active) with
        | none => .error ⟨"Student not found", 404⟩
        | some _ =>
          if enrolled st sid batch_id then
            .error ⟨"Student is already enrolled in this batch", 409⟩
          else .ok { st with enroll := st.enroll ++ [(sid, batch_id)] }

/-- `remove_student_from_batch` (`DELETE /batches/<id>/students/<student_id>`). -/
def remove_student_from_batch (st : DBState) (batch_id student_id : Nat) :
    Except Err DBState :=
  match getBatch st batch_id with
  | none => .error ⟨"Batch not found", 404⟩
  | some _ =>
    match st.users.find? (fun u => u.id == student_id && u.role == .student) with
    | none => .error ⟨"Student not found", 404⟩
    | some _ =>
      if !(enrolled st student_id batch_id) then
        .error ⟨"Student is not enrolled in this batch", 404⟩
      else .ok { st with enroll :=
                  st.enroll.filter (fun p => !(p == (student_id, batch_id))) }

/-- Whether exam `e` sorts strictly before exam `m` under
`order_by(year.desc(), month.desc())`, i.e. `e` is more recent. -/
def moreRecent (e m : MonthlyExam) : Bool :=
  e.year > m.year || (e.year == m.year && e.month > m.month)

/-- One step of selecting the maximum under `(year desc, month desc)`. -/
def mreStep (acc : Option MonthlyExam) (e : MonthlyExam) : Option MonthlyExam :=
  match acc with
  | none => some e
  | some m => if moreRecent e m then some e else some m

/-- `MonthlyExam.query.filter_by(batch_id=batch_id).order_by(year.desc(),
month.desc()).first()`: the most recent exam of the batch (first maximal
element in row order; the database's tie order is immaterial to the claims). -/
def most_recent_exam (exams : List MonthlyExam) (batch_id : Nat) :
    Option MonthlyExam :=
  (exams.filter (fun e => e.batch_id == batch_id)).foldl mreStep none

/-- One step of the `for ranking in rankings` loop building `rank_map`:
`if ranking.position: rank_map[ranking.user_id] = ranking.position` — a null
or zero position is falsy and adds nothing; a later row overwrites an
earlier one for the same user. -/
def rankMapStep (m : List (Nat × Int)) (r : MonthlyRanking) : List (Nat × Int) :=
  match r.position with
  | some p =>
    if !(p == 0) then (m.filter (fun kv => !(kv.1 == r.user_id))) ++ [(r.user_id, p)]
    else m
  | none => m

/-- The `rank_map` built from the given exam's `is_final=True` rankings. -/
def rankMapOf (rankings : List MonthlyRanking) (exam_id : Nat) : List (Nat × Int) :=
  (rankings.filter (fun r => r.monthly_exam_id == exam_id && r.is_final)).foldl
    rankMapStep []

/-- `rank_map.get(user_id)`. -/
def rankLookup (m : List (Nat × Int)) (uid : Nat) : Option Int :=
  (m.find? (fun kv => kv.1 == uid)).map (fun kv => kv.2)

/-- One serialized roster entry (the response fields the claims mention;
`roll_number` and `current_rank` are both `rank_map.get(student.id)`). -/
structure StudentEntry where
  id : Nat
  phoneNumber : String
  first_name : String
  last_name : String
  roll_number : Option Int
  current_rank : Option Int
deriving DecidableEq, Repr

/-- The sort key `(s['current_rank'] is None, s['current_rank'] if
s['current_rank'] else 999999)`. -/
def sortKey (r : Option Int) : Bool × Int :=
  (r.isNone, match r with
             | some v => if !(v == 0) then v else 999999
             | none => 999999)

/-- Python tuple comparison on the sort key: lexicographic, `False < True`. -/
def keyLe (a b : Bool × Int) : Bool :=
  (!a.1 && b.1) || (a.1 == b.1 && a.2 ≤ b.2)

/-- The comparator `students.sort(key=...)` sorts by. -/
def rosterLe (a b : StudentEntry) : Bool :=
  keyLe (sortKey a.current_rank) (sortKey b.current_rank)

/-- The roster order as a decidable relation (for the stable sort). -/
def rosterRel (a b : StudentEntry) : Prop := rosterLe a b = true

instance : DecidableRel rosterRel :=
  fun a b => inferInstanceAs (Decidable (rosterLe a b = true))

/-- The `rank_map` used for a batch: from the most recent exam, else empty. -/
def batchRankMap (exams : List MonthlyExam) (rankings : List MonthlyRanking)
    (batch_id : Nat) : List (Nat × Int) :=
  match most_recent_exam exams batch_id with
  | none => []
  | some ex => rankMapOf rankings ex.id

/-- The unsorted roster list: one entry per active member, in row order. -/
def rosterEntries (st : DBState) (exams : List MonthlyExam)
    (rankings : List MonthlyRanking) (batch_id : Nat) : List StudentEntry :=
  let rank_map := batchRankMap exams rankings batch_id
  ((batchStudents st batch_id).filter (fun u => u.is_active)).map (fun u =>
    { id := u.id, phoneNumber := u.phoneNumber, first_name := u.first_name,
      last_name := u.last_name, roll_number := rankLookup rank_map u.id,
      current_rank := rankLookup rank_map u.id })

/-- `get_batch_students` (`GET /batches/<id>/students`): the active members,
sorted by current rank from the most recent monthly exam.  Python's
`list.sort` is a stable sort; a stable sort by a total preorder is unique, so
the stable `List.insertionSort` is extensionally the same function. -/
def get_batch_students (st : DBState) (exams : List MonthlyExam)
    (rankings : List MonthlyRanking) (batch_id : Nat) :
    Except Err (List StudentEntry) :=
  match getBatch st batch_id with
  | none => .error ⟨"Batch not found", 404⟩
  | some _ => .ok ((rosterEntries st exams rankings batch_id).insertionSort rosterRel)

/-! ## Concrete fixtures used by witnesses and counterexamples -/

/-- A plain active batch, id 1, named "B1". -/
def wBatch : Batch :=
  { id := 1, name := "B1", description := "Class 5 - Physics", subject := "Physics",
    start_date := ⟨2024, 6, 1⟩, end_date := none, fee_amount := 0,
    max_students := 50, status := "active", is_active := true,
    is_archived := false, archived_at := none, archived_by := none,
    archive_reason := none, updated_at := 0 }

/-- An active, unarchived student, id 10. -/
def wStu : User :=
  { id := 10, role := .student, is_active := true, is_archived := false,
    archived_at := none, archived_by := none, archive_reason := none,
    first_name := "Anu", last_name := "Das", phoneNumber := "017" }

/-- A student already archived for an unrelated reason, id 11. -/
def wArch : User :=
  { wStu with
      id := 11, first_name := "Bina", is_archived := true,
      archived_at := some 3, archived_by := some 50,
      archive_reason := some "left the school" }

/-- An enrolled teacher, id 12. -/
def wTeach : User := { wStu with id := 12, first_name := "Tomal", role := .teacher }

/-- State with all three users enrolled in batch 1. -/
def wSt : DBState := ⟨[wBatch], [wStu, wArch, wTeach], [(10, 1), (11, 1), (12, 1)]⟩

/-- The committed state of a successful `archive_batch` run (for proofs). -/
def archPost (st : DBState) (bid : Nat) (reasonOpt : Option String)
    (now uid : Nat) (batch : Batch) : DBState :=
  { st with
      batches := st.batches.map (fun b =>
        if b.id == bid then
          batchArchStamp now uid (reasonOpt.getD "Archived by teacher") batch
        else b),
      users := st.users.map (fun s =>
        if shouldArchive st bid s then archStamp now uid batch.name s else s) }

/-- The committed state of a successful `restore_batch` run with
`restore_students=true` (for proofs). -/
def restPost (st : DBState) (bid : Nat) (batch : Batch) : DBState :=
  { st with
      batches := st.batches.map (fun b =>
        if b.id == bid then batchClearStamp batch else b),
      users := st.users.map (fun s =>
        if shouldRestore st bid batch.name s then clearStamp s else s) }

/-- A student not enrolled anywhere, id 13. -/
def wFree : User := { wStu with id := 13, first_name := "Dip" }

/-- State for the enrollment-error scenarios: only `wStu` is enrolled. -/
def w8St : DBState := ⟨[wBatch], [wStu, wFree], [(10, 1)]⟩

/-- State for the update scenarios: `wBatch` alone, no members. -/
def uSt : DBState := ⟨[wBatch], [], []⟩

/-- Batch named "A", id 1. -/
def c7A : Batch := { wBatch with name := "A" }

/-- Batch named "B " (trailing space), id 2. -/
def c7B : Batch := { wBatch with id := 2, name := "B " }

/-- State with batches "A" and "B ". -/
def c7St : DBState := ⟨[c7A, c7B], [], []⟩

/-- Python truthiness of a ranking's `position` (`if ranking.position:`). -/
def posTruthy (r : MonthlyRanking) : Bool :=
  match r.position with
  | some p => !(p == 0)
  | none => false

/-- Roster-example student A, id 21 (rank 3 in the example). -/
def rA : User :=
  { id := 21, role := .student, is_active := true, is_archived := false,
    archived_at := none, archived_by := none, archive_reason := none,
    first_name := "A", last_name := "S", phoneNumber := "01" }

/-- Roster-example student B, id 22 (rank 1 in the example). -/
def rB : User := { rA with id := 22, first_name := "B", phoneNumber := "02" }

/-- Roster-example student C, id 23 (no rank in the example). -/
def rC : User := { rA with id := 23, first_name := "C", phoneNumber := "03" }

/-- Roster-example state: students A, B, C enrolled in batch 1. -/
def rSt : DBState := ⟨[wBatch], [rA, rB, rC], [(21, 1), (22, 1), (23, 1)]⟩

/-- The most recent (and only) monthly exam of batch 1 in the example. -/
def rExam : MonthlyExam := ⟨500, 1, 2024, 7⟩

/-- Finalized rankings of the example exam: A at position 3, B at position 1. -/
def rRanks : List MonthlyRanking :=
  [⟨1, 500, 21, some 3, true⟩, ⟨2, 500, 22, some 1, true⟩]

/-- The serialized roster entry of an example student with a given rank. -/
def entryOf (u : User) (rk : Option Int) : StudentEntry :=
  { id := u.id, phoneNumber := u.phoneNumber, first_name := u.first_name,
    last_name := u.last_name, roll_number := rk, current_rank := rk }

/-- Every `Batch` column other than the four archive fields. -/
def Batch.frameOf (b : Batch) :
    Nat × String × String × String × Date × Option Date × Int × Nat × String ×
      Bool × Nat :=
  (b.id, b.name, b.description, b.subject, b.start_date, b.end_date,
   b.fee_amount, b.max_students, b.status, b.is_active, b.updated_at)

/-- Every `User` column other than the four archive fields. -/
def User.frameOf (u : User) : Nat × Role × Bool × String × String × String :=
  (u.id, u.role, u.is_active, u.first_name, u.last_name, u.phoneNumber)

/-! ## Helper lemmas -/

theorem getBatch_id {st : DBState} {bid : Nat} {batch : Batch}
    (hb : getBatch st bid = some batch) : batch.id = bid := by
  have h := List.find?_some hb
  simpa using h

/-- Looking the batch up again after the commit replaces the row in place. -/
theorem getBatch_replace (st : DBState) (bid : Nat) (batch new : Batch)
    (hb : getBatch st bid = some batch) (hnew : new.id = batch.id) :
    List.find? (fun b => b.id == bid)
      (st.batches.map (fun b => if b.id == bid then new else b)) = some new := by
  have hid : batch.id = bid := getBatch_id hb
  rw [List.find?_map]
  have hcomp : ((fun b : Batch => b.id == bid) ∘ (fun b => if b.id == bid then new else b))
      = fun b : Batch => b.id == bid := by
    funext b
    rcases h : (b.id == bid) with _ | _
    · have hne : ¬ b.id = bid := by simpa using h
      simp [hne]
    · have heq : b.id = bid := by simpa using h
      simp [heq, hnew, hid]
  rw [hcomp]
  unfold getBatch at hb
  rw [hb]
  simp [hid]

theorem archiveMarker_ne_empty (n : String) : (archiveMarker n == "") = false := by
  have h : (archiveMarker n).length = 21 + n.length := String.length_append ..
  rcases hEq : archiveMarker n == "" with _ | _
  · rfl
  · exfalso
    have he := eq_of_beq hEq
    rw [he] at h
    simp at h
    omega

theorem strContains_self (s : String) : strContains s s = true := by
  simp [strContains, List.infix_refl]

/-- `archive_batch` on a present, unarchived batch commits `archPost`. -/
theorem archive_batch_eq (st : DBState) (bid : Nat) (reasonOpt : Option String)
    (now uid : Nat) (batch : Batch)
    (hb : getBatch st bid = some batch) (hna : batch.is_archived = false) :
    archive_batch st bid reasonOpt now uid =
      .ok (archPost st bid reasonOpt now uid batch,
           (st.users.filter (shouldArchive st bid)).length) := by
  unfold archive_batch
  rw [hb]
  simp [hna, archPost]

/-! ## C2: archive cascade -/

/-- **C2.** For every non-archived batch, `archive(batch, reason)` sets the
batch's `is_archived` flag and stamps `archived_at`/`archived_by`/
`archive_reason`; archives every member student who is not already archived,
stamping that student's `archive_reason` with `"Archived with batch: <name>"`;
leaves already-archived students unchanged; and returns `archived_students`
equal to the number of students it archived. -/
theorem archive_batch_cascade (st : DBState) (bid : Nat) (reasonOpt : Option String)
    (now uid : Nat) (batch : Batch)
    (hb : getBatch st bid = some batch) (hna : batch.is_archived = false) :
    ∃ st', archive_batch st bid reasonOpt now uid =
        .ok (st', st.users.countP
          (fun u => enrolled st u.id bid && !u.is_archived && u.role == .student)) ∧
      getBatch st' bid =
        some (batchArchStamp now uid (reasonOpt.getD "Archived by teacher") batch) ∧
      List.Forall₂ (fun u u' =>
        (enrolled st u.id bid = true ∧ u.is_archived = false ∧ u.role = .student →
          u' = archStamp now uid batch.name u) ∧
        (¬(enrolled st u.id bid = true ∧ u.is_archived = false ∧ u.role = .student) →
          u' = u)) st.users st'.users ∧
      st'.enroll = st.enroll := by
  have hcount : st.users.countP
      (fun u => enrolled st u.id bid && !u.is_archived && u.role == .student)
      = (st.users.filter (shouldArchive st bid)).length := by
    rw [List.countP_eq_length_filter]; rfl
  refine ⟨archPost st bid reasonOpt now uid batch, ?_, ?_, ?_, rfl⟩
  · rw [hcount]
    exact archive_batch_eq st bid reasonOpt now uid batch hb hna
  · show List.find? _ _ = _
    exact getBatch_replace st bid batch _ hb rfl
  · show List.Forall₂ _ st.users (st.users.map _)
    rw [List.forall₂_map_right_iff, List.forall₂_same]
    intro u _
    constructor
    · rintro ⟨h1, h2, h3⟩
      have hc : shouldArchive st bid u = true := by
        simp [shouldArchive, h1, h2, h3]
      rw [if_pos hc]
    · intro hn
      have hc : shouldArchive st bid u = false := by
        unfold shouldArchive
        rcases he : enrolled st u.id bid with _ | _
        · rfl
        rcases ha : u.is_archived with _ | _
        · rcases hr : u.role == Role.student with _ | _
          · simp
          · exact absurd ⟨he, ha, eq_of_beq hr⟩ hn
        · rfl
      rw [if_neg (by simp [hc])]

/-- Witness for C2: a batch with one active unarchived student, one already
archived student and one enrolled teacher; the count is 1. -/
theorem archive_batch_cascade_witness :
    (getBatch wSt 1 = some wBatch) ∧ (wBatch.is_archived = false) ∧
    (∃ st', archive_batch wSt 1 (some "term over") 7 99 =
        .ok (st', wSt.users.countP
          (fun u => enrolled wSt u.id 1 && !u.is_archived && u.role == .student)) ∧
      getBatch st' 1 = some (batchArchStamp 7 99 ((some "term over").getD "Archived by teacher") wBatch) ∧
      List.Forall₂ (fun u u' =>
        (enrolled wSt u.id 1 = true ∧ u.is_archived = false ∧ u.role = .student →
          u' = archStamp 7 99 wBatch.name u) ∧
        (¬(enrolled wSt u.id 1 = true ∧ u.is_archived = false ∧ u.role = .student) →
          u' = u)) wSt.users st'.users ∧
      st'.enroll = wSt.enroll) :=
  ⟨by decide, by decide, archive_batch_cascade wSt 1 (some "term over") 7 99 wBatch (by decide) (by decide)⟩

/-- `restore_batch` with `restore_students=true` on a present, archived batch
commits `restPost`. -/
theorem restore_batch_eq (st : DBState) (bid : Nat) (batch : Batch)
    (hb : getBatch st bid = some batch) (ha : batch.is_archived = true) :
    restore_batch st bid (some true) =
      .ok (restPost st bid batch,
           (st.users.filter (shouldRestore st bid batch.name)).length) := by
  unfold restore_batch
  rw [hb]
  simp [ha, restPost]

/-- A student the archive cascade stamped passes the restore provenance check. -/
theorem shouldRestore_archStamp (st st₁ : DBState) (bid now uid : Nat) (n : String)
    (u : User) (hen : st₁.enroll = st.enroll)
    (he : enrolled st u.id bid = true) (hr : u.role = Role.student) :
    shouldRestore st₁ bid n (archStamp now uid n u) = true := by
  have he' : enrolled st₁ (archStamp now uid n u).id bid = true := by
    unfold enrolled at he ⊢
    rw [hen]
    exact he
  simp [shouldRestore, archStamp, he', hr, archiveMarker_ne_empty, strContains_self,
    enrolled] at *
  simp [he']

/-- Clearing the cascade stamp restores the original row when the original
archive metadata was clean. -/
theorem clearStamp_archStamp (now uid : Nat) (n : String) (u : User)
    (h1 : u.is_archived = false) (h2 : u.archived_at = none)
    (h3 : u.archived_by = none) (h4 : u.archive_reason = none) :
    clearStamp (archStamp now uid n u) = u := by
  cases u
  simp_all [clearStamp, archStamp]

theorem batchClearStamp_archStamp (now uid : Nat) (r : String) (b : Batch)
    (h1 : b.is_archived = false) (h2 : b.archived_at = none)
    (h3 : b.archived_by = none) (h4 : b.archive_reason = none) :
    batchClearStamp (batchArchStamp now uid r b) = b := by
  cases b
  simp_all [batchClearStamp, batchArchStamp]

/-! ## C1: archive-then-restore round trip -/

/-- **C1.**  Archiving a batch and then restoring it with
`restore_students=true` clears the batch's archive fields and un-archives
exactly the students the cascade archived — those whose `archive_reason`
carries the marker for the batch's current name — while students archived for
unrelated reasons (whose reasons do not contain the marker) keep their
archived state and metadata: with clean initial archive metadata the round
trip returns to exactly the initial state, and both the archive count and the
restore count equal the number N of active, non-archived member students. -/
theorem archive_restore_round_trip
    (st : DBState) (bid : Nat) (reasonOpt : Option String) (now uid : Nat)
    (batch : Batch)
    (hb : getBatch st bid = some batch)
    (hna : batch.is_archived = false)
    (hcb : batch.archived_at = none ∧ batch.archived_by = none ∧
           batch.archive_reason = none)
    (huniq : ∀ b ∈ st.batches, b.id = bid → b = batch)
    (husers : ∀ u ∈ st.users, enrolled st u.id bid = true → u.role = Role.student →
      (u.is_archived = false →
        u.is_active = true ∧ u.archived_at = none ∧ u.archived_by = none ∧
        u.archive_reason = none) ∧
      (u.is_archived = true →
        ∀ r, u.archive_reason = some r →
          strContains r (archiveMarker batch.name) = false)) :
    ∃ st₁,
      archive_batch st bid reasonOpt now uid =
        .ok (st₁, st.users.countP (fun u =>
          enrolled st u.id bid && u.is_active && !u.is_archived &&
            u.role == .student)) ∧
      restore_batch st₁ bid (some true) =
        .ok (st, st.users.countP (fun u =>
          enrolled st u.id bid && u.is_active && !u.is_archived &&
            u.role == .student)) := by
  obtain ⟨hcb1, hcb2, hcb3⟩ := hcb
  -- The archive count is the claim's N.
  have hcong : ∀ u ∈ st.users,
      shouldArchive st bid u =
        (enrolled st u.id bid && u.is_active && !u.is_archived &&
          (u.role == Role.student)) := by
    intro u hu
    unfold shouldArchive
    rcases he : enrolled st u.id bid with _ | _
    · rfl
    rcases ha : u.is_archived with _ | _
    · rcases hr : u.role == Role.student with _ | _
      · simp
      · have hact : u.is_active = true :=
          ((husers u hu he (eq_of_beq hr)).1 ha).1
        simp [hact]
    · simp
  have hN : st.users.countP (fun u =>
      enrolled st u.id bid && u.is_active && !u.is_archived &&
        u.role == .student) =
      (st.users.filter (shouldArchive st bid)).length := by
    rw [← List.countP_eq_length_filter]
    exact (List.countP_congr (fun u hu => by rw [hcong u hu])).symm
  set st₁ := archPost st bid reasonOpt now uid batch with hst₁
  have harch := archive_batch_eq st bid reasonOpt now uid batch hb hna
  refine ⟨st₁, by rw [hN]; exact harch, ?_⟩
  -- The archived batch row found by restore.
  set batchA := batchArchStamp now uid (reasonOpt.getD "Archived by teacher") batch
    with hbatchA
  have hb1 : getBatch st₁ bid = some batchA := by
    show List.find? _ _ = _
    exact getBatch_replace st bid batch batchA hb rfl
  have hrest := restore_batch_eq st₁ bid batchA hb1 rfl
  have hen1 : st₁.enroll = st.enroll := rfl
  have hnameA : batchA.name = batch.name := rfl
  -- The restore condition after the cascade is exactly the archive condition.
  have hcondF : ∀ u ∈ st.users, shouldArchive st bid u = false →
      shouldRestore st₁ bid batchA.name u = false := by
    intro u hu hsa
    unfold shouldRestore
    have hen' : enrolled st₁ u.id bid = enrolled st u.id bid := by
      unfold enrolled; rw [hen1]
    rcases he : enrolled st u.id bid with _ | _
    · simp [hen', he]
    rcases hr : u.role == Role.student with _ | _
    · simp [hen', he, hr]
    rcases ha : u.is_archived with _ | _
    · exfalso
      have hT : shouldArchive st bid u = true := by
        simp [shouldArchive, he, ha, hr]
      rw [hT] at hsa
      exact Bool.noConfusion hsa
    · have hmatch := (husers u hu he (eq_of_beq hr)).2 ha
      simp only [hen', he, ha, hr, hnameA, Bool.true_and]
      cases hrs : u.archive_reason with
      | none => simp
      | some r =>
        have hcf := hmatch r hrs
        simp [hcf]
  have hcondT : ∀ u ∈ st.users, shouldArchive st bid u = true →
      shouldRestore st₁ bid batchA.name (archStamp now uid batch.name u) = true := by
    intro u _ hsa
    have h3 : u.role = Role.student := by
      unfold shouldArchive at hsa
      exact eq_of_beq (Bool.and_eq_true .. ▸ hsa).2
    have he : enrolled st u.id bid = true := by
      unfold shouldArchive at hsa
      exact (Bool.and_eq_true .. ▸ (Bool.and_eq_true .. ▸ hsa).1).1
    rw [hnameA]
    exact shouldRestore_archStamp st st₁ bid now uid batch.name u hen1 he h3
  -- The restore count equals N.
  have hcnt : (st₁.users.filter (shouldRestore st₁ bid batchA.name)).length =
      (st.users.filter (shouldArchive st bid)).length := by
    show ((st.users.map _).filter _).length = _
    rw [List.filter_map, List.length_map, ← List.countP_eq_length_filter,
      ← List.countP_eq_length_filter]
    apply List.countP_congr
    intro u hu
    show (shouldRestore st₁ bid batchA.name
      (if shouldArchive st bid u then archStamp now uid batch.name u else u) = true) ↔ _
    rcases hsa : shouldArchive st bid u with _ | _
    · simp [hcondF u hu hsa, hsa]
    · simp [hcondT u hu hsa, hsa]
  -- The restore commits the original state back.
  have hback : restPost st₁ bid batchA = st := by
    have hbat : st₁.batches.map
        (fun b => if b.id == bid then batchClearStamp batchA else b) =
        st.batches := by
      show (st.batches.map _).map _ = st.batches
      rw [List.map_map]
      have hpt : ∀ b ∈ st.batches,
          ((fun b => if b.id == bid then batchClearStamp batchA else b) ∘
           (fun b => if b.id == bid then batchA else b)) b = id b := by
        intro b hbm
        rcases hid : (b.id == bid) with _ | _
        · simp [Function.comp, hid]
        · have hbeq : b = batch := huniq b hbm (by simpa using hid)
          have hAid : (batchA.id == bid) = true := by
            have hbi : batch.id = bid := getBatch_id hb
            simp [hbatchA, batchArchStamp, hbi]
          simp only [Function.comp_apply, if_pos hid, if_pos hAid, id_eq]
          rw [hbatchA,
            batchClearStamp_archStamp now uid _ batch hna hcb1 hcb2 hcb3, hbeq]
      rw [List.map_congr_left hpt, List.map_id]
    have husr : st₁.users.map
        (fun s => if shouldRestore st₁ bid batchA.name s then clearStamp s else s) =
        st.users := by
      show (st.users.map _).map _ = st.users
      rw [List.map_map]
      have hpt : ∀ u ∈ st.users,
          ((fun s => if shouldRestore st₁ bid batchA.name s then clearStamp s else s) ∘
           (fun s => if shouldArchive st bid s then archStamp now uid batch.name s else s)) u
          = id u := by
        intro u hu
        rcases hsa : shouldArchive st bid u with _ | _
        · simp only [Function.comp_apply, hsa, Bool.false_eq_true, if_false, id_eq]
          rw [if_neg (by simp [hcondF u hu hsa])]
        · simp only [Function.comp_apply, hsa, if_true, id_eq]
          rw [if_pos (hcondT u hu hsa)]
          have he : enrolled st u.id bid = true := by
            unfold shouldArchive at hsa
            exact (Bool.and_eq_true .. ▸ (Bool.and_eq_true .. ▸ hsa).1).1
          have hr : u.role = Role.student := by
            unfold shouldArchive at hsa
            exact eq_of_beq (Bool.and_eq_true .. ▸ hsa).2
          have hnarch : u.is_archived = false := by
            unfold shouldArchive at hsa
            have hh := (Bool.and_eq_true .. ▸ (Bool.and_eq_true .. ▸ hsa).1).2
            simpa using hh
          obtain ⟨-, c2, c3, c4⟩ := (husers u hu he hr).1 hnarch
          exact clearStamp_archStamp now uid batch.name u hnarch c2 c3 c4
      rw [List.map_congr_left hpt, List.map_id]
    show DBState.mk _ _ _ = st
    rw [hbat, husr, hen1]
  rw [hrest, hback, hcnt, hN]

/-- Witness for C1: batch 1 with an active clean student, a student archived
for an unrelated reason, and an enrolled teacher; N = 1 and the round trip
returns the exact original state. -/
theorem archive_restore_round_trip_witness :
    ∃ st₁,
      archive_batch wSt 1 (some "term over") 7 99 =
        .ok (st₁, wSt.users.countP (fun u =>
          enrolled wSt u.id 1 && u.is_active && !u.is_archived &&
            u.role == .student)) ∧
      restore_batch st₁ 1 (some true) =
        .ok (wSt, wSt.users.countP (fun u =>
          enrolled wSt u.id 1 && u.is_active && !u.is_archived &&
            u.role == .student)) := by
  have husersW : ∀ u ∈ wSt.users, enrolled wSt u.id 1 = true →
      u.role = Role.student →
      (u.is_archived = false →
        u.is_active = true ∧ u.archived_at = none ∧ u.archived_by = none ∧
        u.archive_reason = none) ∧
      (u.is_archived = true →
        ∀ r, u.archive_reason = some r →
          strContains r (archiveMarker wBatch.name) = false) := by
    intro u hu
    have hu3 : u = wStu ∨ u = wArch ∨ u = wTeach := by
      simpa [wSt] using hu
    rcases hu3 with rfl | rfl | rfl
    · exact fun _ _ => ⟨fun _ => by decide, fun h => absurd h (by decide)⟩
    · refine fun _ _ => ⟨fun h => absurd h (by decide), fun _ r hr => ?_⟩
      have hr' : r = "left the school" := by
        have h2 : (some "left the school" : Option String) = some r := hr
        injection h2 with h3
        exact h3.symm
      subst hr'
      decide
    · exact fun _ h => absurd h (by decide)
  exact archive_restore_round_trip wSt 1 (some "term over") 7 99 wBatch
    (by decide) (by decide) (by decide) (by decide) husersW

/-- `restore_batch` on a present, archived batch, for any `restore_students`
option, commits the cleared batch and (when restoring students) the cleared
cascaded students. -/
theorem restore_batch_eq_general (st : DBState) (bid : Nat) (rOpt : Option Bool)
    (batch : Batch) (hb : getBatch st bid = some batch)
    (ha : batch.is_archived = true) :
    restore_batch st bid rOpt = .ok
      ({ st with
          batches := st.batches.map (fun b =>
            if b.id == bid then batchClearStamp batch else b),
          users := if rOpt.getD true then
              st.users.map (fun s =>
                if shouldRestore st bid batch.name s then clearStamp s else s)
            else st.users },
       if rOpt.getD true then
         (st.users.filter (shouldRestore st bid batch.name)).length
       else 0) := by
  unfold restore_batch
  rw [hb]
  simp [ha]

/-! ## C9: archive/restore touch only archive fields -/

/-- **C9.**  Archive and restore never toggle the batch's `is_active` flag nor
any student's: every column of every batch row and every user row other than
the four archive fields (`is_archived`, `archived_at`, `archived_by`,
`archive_reason`) is unchanged by a successful archive or restore, and the
enrollment association is unchanged. -/
theorem archive_restore_frame (st : DBState) (bid : Nat) (ro : Option String)
    (now uid : Nat) (batch : Batch)
    (hb : getBatch st bid = some batch)
    (huniq : ∀ b ∈ st.batches, b.id = bid → b = batch) :
    (∀ st' n, archive_batch st bid ro now uid = .ok (st', n) →
      st'.enroll = st.enroll ∧
      st'.users.map User.frameOf = st.users.map User.frameOf ∧
      st'.batches.map Batch.frameOf = st.batches.map Batch.frameOf) ∧
    (∀ rOpt st' n, restore_batch st bid rOpt = .ok (st', n) →
      st'.enroll = st.enroll ∧
      st'.users.map User.frameOf = st.users.map User.frameOf ∧
      st'.batches.map Batch.frameOf = st.batches.map Batch.frameOf) := by
  have hbid : batch.id = bid := getBatch_id hb
  constructor
  · intro st' n h
    rcases ht : batch.is_archived with _ | _
    · rw [archive_batch_eq st bid ro now uid batch hb ht] at h
      obtain ⟨h1, -⟩ := Prod.mk.injEq .. ▸ (Except.ok.injEq .. ▸ h)
      subst h1
      refine ⟨rfl, ?_, ?_⟩
      · show (st.users.map _).map _ = _
        rw [List.map_map]
        apply List.map_congr_left
        intro u _
        rcases hc : shouldArchive st bid u with _ | _ <;>
          simp [Function.comp, hc, archStamp, User.frameOf]
      · show (st.batches.map _).map _ = _
        rw [List.map_map]
        apply List.map_congr_left
        intro b hbm
        rcases hid : (b.id == bid) with _ | _
        · simp [Function.comp, hid]
        · have hbeq : b = batch := huniq b hbm (by simpa using hid)
          simp [Function.comp, hid, batchArchStamp, Batch.frameOf, hbeq, hbid]
    · unfold archive_batch at h
      rw [hb] at h
      simp [ht] at h
  · intro rOpt st' n h
    rcases ht : batch.is_archived with _ | _
    · unfold restore_batch at h
      rw [hb] at h
      simp [ht] at h
    · rw [restore_batch_eq_general st bid rOpt batch hb ht] at h
      obtain ⟨h1, -⟩ := Prod.mk.injEq .. ▸ (Except.ok.injEq .. ▸ h)
      subst h1
      refine ⟨rfl, ?_, ?_⟩
      · rcases hro : rOpt.getD true with _ | _
        · simp only [hro, Bool.false_eq_true, if_false]
        · simp only [hro, if_true]
          show (st.users.map _).map _ = _
          rw [List.map_map]
          apply List.map_congr_left
          intro u _
          rcases hc : shouldRestore st bid batch.name u with _ | _ <;>
            simp [Function.comp, hc, clearStamp, User.frameOf]
      · show (st.batches.map _).map _ = _
        rw [List.map_map]
        apply List.map_congr_left
        intro b hbm
        rcases hid : (b.id == bid) with _ | _
        · simp [Function.comp, hid]
        · have hbeq : b = batch := huniq b hbm (by simpa using hid)
          simp [Function.comp, hid, batchClearStamp, Batch.frameOf, hbeq, hbid]

/-- Witness for C9: the frame conclusions at the concrete state `wSt`. -/
theorem archive_restore_frame_witness :
    (∀ st' n, archive_batch wSt 1 (some "term over") 7 99 = .ok (st', n) →
      st'.enroll = wSt.enroll ∧
      st'.users.map User.frameOf = wSt.users.map User.frameOf ∧
      st'.batches.map Batch.frameOf = wSt.batches.map Batch.frameOf) ∧
    (∀ rOpt st' n, restore_batch wSt 1 rOpt = .ok (st', n) →
      st'.enroll = wSt.enroll ∧
      st'.users.map User.frameOf = wSt.users.map User.frameOf ∧
      st'.batches.map Batch.frameOf = wSt.batches.map Batch.frameOf) :=
  archive_restore_frame wSt 1 (some "term over") 7 99 wBatch (by decide) (by decide)

/-! ## C6: delete gated on active members -/

/-- **C6.**  `delete(id)` on a batch with at least one active member student is
rejected with an error reporting the count of blocking active students and
commits nothing; with zero active members it succeeds, clears the batch's
enrollment associations, and removes the batch row. -/
theorem delete_batch_gate (st : DBState) (bid : Nat) (batch : Batch)
    (hb : getBatch st bid = some batch) :
    (((batchStudents st bid).filter (fun s => s.is_active)) ≠ [] →
      delete_batch st bid = .error
        ⟨"Cannot delete batch with " ++
            toString ((batchStudents st bid).filter (fun s => s.is_active)).length ++
            " active students. Please remove students first.", 400⟩ ∧
      postState1 (delete_batch st bid) st = st) ∧
    (((batchStudents st bid).filter (fun s => s.is_active)) = [] →
      delete_batch st bid = .ok
        { st with
            batches := st.batches.filter (fun b => !(b.id == bid)),
            enroll := st.enroll.filter (fun p => !(p.2 == bid)) }) := by
  constructor
  · intro hne
    have hemp : ((batchStudents st bid).filter (fun s => s.is_active)).isEmpty = false := by
      rcases hx : ((batchStudents st bid).filter (fun s => s.is_active)) with _ | ⟨a, l⟩
      · exact absurd hx hne
      · rw [hx]; rfl
    have heq : delete_batch st bid = .error
        ⟨"Cannot delete batch with " ++
            toString ((batchStudents st bid).filter (fun s => s.is_active)).length ++
            " active students. Please remove students first.", 400⟩ := by
      unfold delete_batch
      rw [hb]
      simp [hemp]
    exact ⟨heq, by rw [postState1.eq_def, heq]⟩
  · intro hemp
    unfold delete_batch
    rw [hb]
    simp [hemp]

/-- Witness for C6 at `wSt` (three active members block the delete). -/
theorem delete_batch_gate_witness :
    (((batchStudents wSt 1).filter (fun s => s.is_active)) ≠ [] →
      delete_batch wSt 1 = .error
        ⟨"Cannot delete batch with " ++
            toString ((batchStudents wSt 1).filter (fun s => s.is_active)).length ++
            " active students. Please remove students first.", 400⟩ ∧
      postState1 (delete_batch wSt 1) wSt = wSt) ∧
    (((batchStudents wSt 1).filter (fun s => s.is_active)) = [] →
      delete_batch wSt 1 = .ok
        { wSt with
            batches := wSt.batches.filter (fun b => !(b.id == 1)),
            enroll := wSt.enroll.filter (fun p => !(p.2 == 1)) }) :=
  delete_batch_gate wSt 1 wBatch (by decide)

/-! ## C8: duplicate enrollment and absent unenrollment are errors -/

/-- **C8.**  Adding an existing, active, role-STUDENT user who is already
enrolled in the batch fails with a 409 conflict (not a silent no-op), and
removing a role-STUDENT user who is not enrolled fails as 404 not-found; in
both cases nothing is committed. -/
theorem enrollment_conflict_rules (st : DBState) (bid sid : Nat) (b : Batch)
    (hb : getBatch st bid = some b) (hsid : sid ≠ 0) :
    ((∃ u ∈ st.users, (u.id == sid && u.role == Role.student && u.is_active) = true) →
      enrolled st sid bid = true →
      add_student_to_batch st bid (some sid) =
        .error ⟨"Student is already enrolled in this batch", 409⟩ ∧
      postState1 (add_student_to_batch st bid (some sid)) st = st) ∧
    ((∃ u ∈ st.users, (u.id == sid && u.role == Role.student) = true) →
      enrolled st sid bid = false →
      remove_student_from_batch st bid sid =
        .error ⟨"Student is not enrolled in this batch", 404⟩ ∧
      postState1 (remove_student_from_batch st bid sid) st = st) := by
  constructor
  · intro hex hen
    have hfind : (st.users.find?
        (fun u => u.id == sid && u.role == Role.student && u.is_active)).isSome :=
      List.find?_isSome.mpr hex
    rcases hf : st.users.find?
        (fun u => u.id == sid && u.role == Role.student && u.is_active) with _ | u
    · rw [hf] at hfind; cases hfind
    · have heq : add_student_to_batch st bid (some sid) =
          .error ⟨"Student is already enrolled in this batch", 409⟩ := by
        have h0 : (sid == 0) = false := by simpa using hsid
        simp [add_student_to_batch, hb, h0, hf, hen]
      exact ⟨heq, by rw [postState1.eq_def, heq]⟩
  · intro hex hen
    have hfind : (st.users.find?
        (fun u => u.id == sid && u.role == Role.student)).isSome :=
      List.find?_isSome.mpr hex
    rcases hf : st.users.find?
        (fun u => u.id == sid && u.role == Role.student) with _ | u
    · rw [hf] at hfind; cases hfind
    · have heq : remove_student_from_batch st bid sid =
          .error ⟨"Student is not enrolled in this batch", 404⟩ := by
        simp [remove_student_from_batch, hb, hf, hen]
      exact ⟨heq, by rw [postState1.eq_def, heq]⟩

/-- Witness for C8 at `w8St`: adding the enrolled student 10 conflicts, and
removing the unenrolled student 13 is not-found. -/
theorem enrollment_conflict_rules_witness :
    (((∃ u ∈ w8St.users, (u.id == 10 && u.role == Role.student && u.is_active) = true) →
      enrolled w8St 10 1 = true →
      add_student_to_batch w8St 1 (some 10) =
        .error ⟨"Student is already enrolled in this batch", 409⟩ ∧
      postState1 (add_student_to_batch w8St 1 (some 10)) w8St = w8St) ∧
    ((∃ u ∈ w8St.users, (u.id == 10 && u.role == Role.student) = true) →
      enrolled w8St 10 1 = false →
      remove_student_from_batch w8St 1 10 =
        .error ⟨"Student is not enrolled in this batch", 404⟩ ∧
      postState1 (remove_student_from_batch w8St 1 10) w8St = w8St)) ∧
    (((∃ u ∈ w8St.users, (u.id == 13 && u.role == Role.student && u.is_active) = true) →
      enrolled w8St 13 1 = true →
      add_student_to_batch w8St 1 (some 13) =
        .error ⟨"Student is already enrolled in this batch", 409⟩ ∧
      postState1 (add_student_to_batch w8St 1 (some 13)) w8St = w8St) ∧
    ((∃ u ∈ w8St.users, (u.id == 13 && u.role == Role.student) = true) →
      enrolled w8St 13 1 = false →
      remove_student_from_batch w8St 1 13 =
        .error ⟨"Student is not enrolled in this batch", 404⟩ ∧
      postState1 (remove_student_from_batch w8St 1 13) w8St = w8St)) :=
  ⟨enrollment_conflict_rules w8St 1 10 wBatch (by decide) (by decide),
   enrollment_conflict_rules w8St 1 13 wBatch (by decide) (by decide)⟩

/-! ## C3/C4: the `updatable_fields = ['name']` slip -/

/-- **C3 (code bug).**  A request whose `end_date` value ("2020-01-01") is
before the stored `start_date` (2024-06-01) is *accepted*: because
`updatable_fields` lists only `'name'`, the request's `end_date` is ignored,
the final range validation sees the unchanged stored dates, and the update
commits (only `updated_at` moves) instead of failing with the validation
error the spec requires. -/
theorem update_end_date_ignored :
    Date.le ⟨2020, 1, 1⟩ wBatch.start_date = true ∧
    parse_date "2020-01-01" = some ⟨2020, 1, 1⟩ ∧
    update_batch uSt 1 [("end_date", some "2020-01-01")] 5 =
      .ok ⟨[{ wBatch with updated_at := 5 }], [], []⟩ := by
  refine ⟨by decide, by decide, ?_⟩
  decide

/-- **C4 (code bug).**  `start_date`, `end_date` and `fee_amount` values in an
update request are neither stored nor validated: a well-formed `start_date`
is not stored, a malformed `end_date` does not produce a 400, and a negative
or well-formed `fee_amount` is neither rejected nor stored — every such
request commits with only `updated_at` changed, because `updatable_fields`
lists only `'name'`. -/
theorem update_date_fee_fields_ignored :
    parse_date "2024-01-15" = some ⟨2024, 1, 15⟩ ∧
    update_batch uSt 1 [("start_date", some "2024-01-15")] 5 =
      .ok ⟨[{ wBatch with updated_at := 5 }], [], []⟩ ∧
    parse_date "garbage" = none ∧
    update_batch uSt 1 [("end_date", some "garbage")] 5 =
      .ok ⟨[{ wBatch with updated_at := 5 }], [], []⟩ ∧
    parse_fee "-5" = some (-5) ∧
    update_batch uSt 1 [("fee_amount", some "-5")] 5 =
      .ok ⟨[{ wBatch with updated_at := 5 }], [], []⟩ ∧
    update_batch uSt 1 [("fee_amount", some "120")] 5 =
      .ok ⟨[{ wBatch with updated_at := 5 }], [], []⟩ := by
  refine ⟨by decide, ?_, by decide, ?_, by decide, ?_, ?_⟩ <;> decide

/-! ## C7: name uniqueness broken by the untrimmed store -/

/-- **C7 (code bug).**  `update_batch` compares the *trimmed* requested name
against other batches but stores the *raw* name: renaming batch 1 (named "A")
to "B " succeeds even though batch 2 is already named "B ", leaving two
batches with identical names — the uniqueness invariant is not preserved.
(`create_batch` does reject a duplicate of a trimmed name: creating "A "
against the existing "A" is a 409.) -/
theorem update_name_uniqueness_violated :
    update_batch c7St 1 [("name", some "B ")] 9 =
      .ok ⟨[{ c7A with name := "B ", updated_at := 9 }, c7B], [], []⟩ ∧
    ({ c7A with name := "B ", updated_at := 9 } : Batch).name = c7B.name ∧
    create_batch c7St
        [("name", some "A "), ("class", some "Class 1"), ("subject", some "Physics")]
        ⟨2024, 1, 1⟩ 3 =
      .error ⟨"Batch with this name already exists", 409⟩ := by
  refine ⟨?_, by decide, ?_⟩ <;> decide

/-! ## Supporting lemmas for the ranked roster -/

theorem keyLe_trans (a b c : Bool × Int)
    (h1 : keyLe a b = true) (h2 : keyLe b c = true) : keyLe a c = true := by
  rcases a with ⟨a1, a2⟩
  rcases b with ⟨b1, b2⟩
  rcases c with ⟨c1, c2⟩
  cases a1 <;> cases b1 <;> cases c1 <;> simp_all [keyLe] <;> omega

theorem keyLe_total (a b : Bool × Int) : (keyLe a b || keyLe b a) = true := by
  rcases a with ⟨a1, a2⟩
  rcases b with ⟨b1, b2⟩
  cases a1 <;> cases b1 <;> simp_all [keyLe] <;> omega

theorem keyLe_refl (a : Bool × Int) : keyLe a a = true := by
  rcases a with ⟨a1, a2⟩
  simp [keyLe]

theorem rosterLe_trans (a b c : StudentEntry)
    (h1 : rosterLe a b = true) (h2 : rosterLe b c = true) : rosterLe a c = true :=
  keyLe_trans _ _ _ h1 h2

theorem rosterLe_total (a b : StudentEntry) : (rosterLe a b || rosterLe b a) = true :=
  keyLe_total _ _

instance : IsTrans StudentEntry rosterRel :=
  ⟨fun a b c h1 h2 => rosterLe_trans a b c h1 h2⟩

instance : IsTotal StudentEntry rosterRel :=
  ⟨fun a b => by
    have h := rosterLe_total a b
    rcases Bool.or_eq_true_iff.mp h with h1 | h1
    · exact .inl h1
    · exact .inr h1⟩

/-- Stability of the sort on an equivalence class: filtering by a predicate
whose holders are pairwise `r`-equivalent commutes with sorting. -/
theorem filter_stable_sort {α : Type} (r : α → α → Prop) [DecidableRel r]
    (p : α → Bool) (hp : ∀ a b, p a = true → p b = true → r a b)
    (l : List α) :
    (l.insertionSort r).filter p = l.filter p := by
  have hpair : (l.filter p).Pairwise r :=
    List.pairwise_of_forall_mem_list (fun a ha b hb =>
      hp a b (List.of_mem_filter ha) (List.of_mem_filter hb))
  have hsub : (l.filter p).Sublist (l.insertionSort r) :=
    List.sublist_insertionSort hpair (List.filter_sublist l)
  have hself : (l.filter p).filter p = l.filter p :=
    List.filter_eq_self.mpr (fun a ha => List.of_mem_filter ha)
  have hsubf : (l.filter p).Sublist ((l.insertionSort r).filter p) := by
    rw [← hself]
    exact List.Sublist.filter p hsub
  have hperm : ((l.insertionSort r).filter p).Perm (l.filter p) :=
    (List.perm_insertionSort r l).filter p
  exact (hsubf.eq_of_length hperm.length_eq.symm).symm

/-- `(year, month)` dominance: `e` is not strictly more recent than `m`. -/
theorem moreRecent_false_iff (e m : MonthlyExam) :
    moreRecent e m = false ↔
      (e.year < m.year ∨ (e.year = m.year ∧ e.month ≤ m.month)) := by
  simp [moreRecent]
  omega

theorem foldl_mreStep_mem (l : List MonthlyExam) :
    ∀ (acc : Option MonthlyExam) (x : MonthlyExam),
      l.foldl mreStep acc = some x → acc = some x ∨ x ∈ l := by
  induction l with
  | nil => exact fun acc x h => .inl h
  | cons e t ih =>
    intro acc x h
    rcases ih (mreStep acc e) x h with h1 | h2
    · cases acc with
      | none =>
        rw [show mreStep none e = some e from rfl] at h1
        injection h1 with hx
        exact .inr (hx ▸ List.mem_cons_self e t)
      | some m =>
        rw [show mreStep (some m) e =
            if moreRecent e m then some e else some m from rfl] at h1
        by_cases hmr : moreRecent e m = true
        · rw [if_pos hmr] at h1
          injection h1 with hx
          exact .inr (hx ▸ List.mem_cons_self e t)
        · rw [if_neg hmr] at h1
          exact .inl h1
    · exact .inr (List.mem_cons_of_mem e h2)

/-- The fold's result dominates the accumulator and every element. -/
theorem foldl_mreStep_dom (l : List MonthlyExam) :
    ∀ (acc : Option MonthlyExam) (x : MonthlyExam),
      l.foldl mreStep acc = some x →
      (∀ m, acc = some m → moreRecent m x = false) ∧
      (∀ e ∈ l, moreRecent e x = false) := by
  induction l with
  | nil =>
    intro acc x h
    refine ⟨fun m hm => ?_, fun e he => absurd he (List.not_mem_nil e)⟩
    rw [hm] at h
    injection h with hx
    rw [hx]
    rw [moreRecent_false_iff]
    omega
  | cons e t ih =>
    intro acc x h
    obtain ⟨ih1, ih2⟩ := ih (mreStep acc e) x h
    have hstep : ∀ m, mreStep acc e = some m → moreRecent m x = false := ih1
    have hex : moreRecent e x = false := by
      cases acc with
      | none => exact hstep e rfl
      | some m =>
        by_cases hmr : moreRecent e m = true
        · exact hstep e (by
            rw [show mreStep (some m) e =
              if moreRecent e m then some e else some m from rfl, if_pos hmr])
        · have hmx : moreRecent m x = false := hstep m (by
            rw [show mreStep (some m) e =
              if moreRecent e m then some e else some m from rfl, if_neg hmr])
          rw [moreRecent_false_iff] at hmx ⊢
          have hem := (Bool.not_eq_true _).mp hmr
          rw [moreRecent_false_iff] at hem
          omega
    refine ⟨fun m hm => ?_, fun e' he' => ?_⟩
    · cases acc with
      | none => cases hm
      | some m' =>
        have hmm : m' = m := Option.some.inj hm
        rw [← hmm]
        by_cases hmr : moreRecent e m' = true
        · have hexx : moreRecent e x = false := hex
          have hme : moreRecent m' e = false := by
            rw [moreRecent_false_iff]
            simp [moreRecent] at hmr
            omega
          rw [moreRecent_false_iff] at hexx hme ⊢
          omega
        · exact hstep m' (by
            rw [show mreStep (some m') e =
              if moreRecent e m' then some e else some m' from rfl, if_neg hmr])
    · rcases List.mem_cons.mp he' with rfl | hmem
      · exact hex
      · exact ih2 e' hmem

/-- Every entry of the built `rank_map` comes from a row of the list it was
folded over, with a truthy position. -/
theorem foldl_rankMapStep_mem (l : List MonthlyRanking) :
    ∀ (m : List (Nat × Int)) (kv : Nat × Int),
      kv ∈ l.foldl rankMapStep m →
      kv ∈ m ∨ ∃ r ∈ l, r.user_id = kv.1 ∧ r.position = some kv.2 ∧ kv.2 ≠ 0 := by
  induction l with
  | nil => exact fun m kv h => .inl h
  | cons r t ih =>
    intro m kv h
    rcases ih (rankMapStep m r) kv h with h1 | ⟨r', hr', hprops⟩
    · unfold rankMapStep at h1
      cases hp : r.position with
      | none =>
        rw [hp] at h1
        exact .inl h1
      | some p =>
        rw [hp] at h1
        have h1' : kv ∈ (if (!(p == 0)) = true then
            m.filter (fun kv => !(kv.1 == r.user_id)) ++ [(r.user_id, p)]
          else m) := h1
        by_cases hz : (p == 0) = true
        · rw [if_neg (by simp [hz])] at h1'
          exact .inl h1'
        · have hzb : (p == 0) = false := by simpa using hz
          rw [if_pos (by simp [hzb])] at h1'
          rcases List.mem_append.mp h1' with hin | hnew
          · exact .inl (List.mem_of_mem_filter hin)
          · have hkv : kv = (r.user_id, p) := by simpa using hnew
            refine .inr ⟨r, List.mem_cons_self r t, ?_, ?_, ?_⟩
            · rw [hkv]
            · rw [hkv, hp]
            · rw [hkv]
              simpa using hz
    · exact .inr ⟨r', List.mem_cons_of_mem r hr', hprops⟩

/-- A successful rank lookup is justified by a final ranking row of the exam
with that (nonzero) position. -/
theorem rankLookup_sound (rankings : List MonthlyRanking) (exid uid : Nat)
    (p : Int) (h : rankLookup (rankMapOf rankings exid) uid = some p) :
    ∃ r ∈ rankings, r.monthly_exam_id = exid ∧ r.is_final = true ∧
      r.user_id = uid ∧ r.position = some p ∧ p ≠ 0 := by
  unfold rankLookup at h
  rcases hf : (rankMapOf rankings exid).find? (fun kv => kv.1 == uid) with _ | kv
  · rw [hf] at h; cases h
  · rw [hf] at h
    injection h with hp
    have hp2 : kv.2 = p := hp
    have hmem : kv ∈ rankMapOf rankings exid := List.mem_of_find?_eq_some hf
    have huid : kv.1 = uid := by simpa using List.find?_some hf
    unfold rankMapOf at hmem
    rcases foldl_rankMapStep_mem _ _ _ hmem with hin | ⟨r, hr, h1, h2, h3⟩
    · cases hin
    · have hrf := List.mem_filter.mp hr
      refine ⟨r, hrf.1, ?_, ?_, ?_, ?_, ?_⟩
      · have := hrf.2
        simp at this
        exact this.1
      · have := hrf.2
        simp at this
        exact this.2
      · rw [h1, huid]
      · rw [h2, hp2]
      · rw [← hp2]; exact h3

/-- A non-truthy position makes the `rank_map` loop a no-op. -/
theorem rankMapStep_of_not_truthy (m : List (Nat × Int)) (r : MonthlyRanking)
    (h : posTruthy r = false) : rankMapStep m r = m := by
  unfold rankMapStep
  unfold posTruthy at h
  cases hp : r.position with
  | none => rfl
  | some p =>
    rw [hp] at h
    have h' : (!(p == 0)) = false := h
    show (if (!(p == 0)) = true then
        m.filter (fun kv => !(kv.1 == r.user_id)) ++ [(r.user_id, p)]
      else m) = m
    rw [if_neg (by simp [h'])]

theorem foldl_rankMapStep_filter (l : List MonthlyRanking) :
    ∀ m : List (Nat × Int),
      (l.filter posTruthy).foldl rankMapStep m = l.foldl rankMapStep m := by
  induction l with
  | nil => intro m; rfl
  | cons r t ih =>
    intro m
    rcases hp : posTruthy r with _ | _
    · rw [List.filter_cons_of_neg (by simp [hp]), List.foldl_cons,
        rankMapStep_of_not_truthy m r hp]
      exact ih m
    · rw [List.filter_cons_of_pos hp, List.foldl_cons, List.foldl_cons]
      exact ih (rankMapStep m r)

/-- Rows with a null or zero `position` contribute nothing to the rank map. -/
theorem rankMapOf_filter_posTruthy (rankings : List MonthlyRanking) (exid : Nat) :
    rankMapOf (rankings.filter posTruthy) exid = rankMapOf rankings exid := by
  unfold rankMapOf
  rw [List.filter_comm]
  exact foldl_rankMapStep_filter _ []

/-! ## C5: the ranked roster listing -/

/-- **C5.**  The roster listing selects the batch's `MonthlyExam` with the
latest `(year, month)` pair (year desc, then month desc), builds the rank map
from only that exam's `is_final` rankings, and returns the batch's active
students sorted by `(has-no-rank, rank-value)` ascending: ranked students
first in ascending rank order, unranked after, stable by original order
within each equal-key tier.  In particular A (rank 3), B (rank 1), C (no
rank) are listed as B, A, C. -/
theorem get_batch_students_ranked (st : DBState) (exams : List MonthlyExam)
    (rankings : List MonthlyRanking) (bid : Nat) (b : Batch)
    (hb : getBatch st bid = some b) :
    ∃ out, get_batch_students st exams rankings bid = .ok out ∧
      out.Perm (rosterEntries st exams rankings bid) ∧
      List.Sorted rosterRel out ∧
      (∀ k : Bool × Int, out.filter (fun s => sortKey s.current_rank == k) =
        (rosterEntries st exams rankings bid).filter
          (fun s => sortKey s.current_rank == k)) ∧
      (∀ ex, most_recent_exam exams bid = some ex →
        ex.batch_id = bid ∧
        ∀ e ∈ exams, e.batch_id = bid → moreRecent e ex = false) ∧
      (∀ s ∈ out, ∀ p : Int, s.current_rank = some p →
        ∃ ex, most_recent_exam exams bid = some ex ∧
          ∃ r ∈ rankings, r.monthly_exam_id = ex.id ∧ r.is_final = true ∧
            r.user_id = s.id ∧ r.position = some p ∧ p ≠ 0) ∧
      get_batch_students rSt [rExam] rRanks 1 =
        .ok [entryOf rB (some 1), entryOf rA (some 3), entryOf rC none] := by
  have hout : get_batch_students st exams rankings bid =
      .ok ((rosterEntries st exams rankings bid).insertionSort rosterRel) := by
    unfold get_batch_students
    rw [hb]
  refine ⟨(rosterEntries st exams rankings bid).insertionSort rosterRel, hout,
    List.perm_insertionSort rosterRel _, List.sorted_insertionSort rosterRel _,
    ?_, ?_, ?_, by decide⟩
  · intro k
    apply filter_stable_sort rosterRel
    intro a c ha hc
    have ha' : sortKey a.current_rank = k := by simpa using ha
    have hc' : sortKey c.current_rank = k := by simpa using hc
    show rosterLe a c = true
    unfold rosterLe
    rw [ha', hc']
    exact keyLe_refl k
  · intro ex hex
    unfold most_recent_exam at hex
    constructor
    · rcases foldl_mreStep_mem _ _ _ hex with h1 | h2
      · cases h1
      · have hmf := List.mem_filter.mp h2
        simpa using hmf.2
    · intro e he hbe
      exact (foldl_mreStep_dom _ _ _ hex).2 e
        (List.mem_filter.mpr ⟨he, by simpa using hbe⟩)
  · intro s hs p hp
    have hs' : s ∈ rosterEntries st exams rankings bid :=
      (List.mem_insertionSort rosterRel).mp hs
    unfold rosterEntries at hs'
    obtain ⟨u, hu, hsu⟩ := List.mem_map.mp hs'
    subst hsu
    have hp' : rankLookup (batchRankMap exams rankings bid) u.id = some p := hp
    rcases hmre : most_recent_exam exams bid with _ | ex
    · rw [batchRankMap, hmre] at hp'
      cases hp'
    · rw [batchRankMap, hmre] at hp'
      obtain ⟨r, hr, h1, h2, h3, h4, h5⟩ := rankLookup_sound rankings ex.id u.id p hp'
      exact ⟨ex, rfl, r, hr, h1, h2, h3, h4, h5⟩

/-- Witness for C5 at the A/B/C example state. -/
theorem get_batch_students_ranked_witness :
    ∃ out, get_batch_students rSt [rExam] rRanks 1 = .ok out ∧
      out.Perm (rosterEntries rSt [rExam] rRanks 1) ∧
      List.Sorted rosterRel out ∧
      (∀ k : Bool × Int, out.filter (fun s => sortKey s.current_rank == k) =
        (rosterEntries rSt [rExam] rRanks 1).filter
          (fun s => sortKey s.current_rank == k)) ∧
      (∀ ex, most_recent_exam [rExam] 1 = some ex →
        ex.batch_id = 1 ∧
        ∀ e ∈ [rExam], e.batch_id = 1 → moreRecent e ex = false) ∧
      (∀ s ∈ out, ∀ p : Int, s.current_rank = some p →
        ∃ ex, most_recent_exam [rExam] 1 = some ex ∧
          ∃ r ∈ rRanks, r.monthly_exam_id = ex.id ∧ r.is_final = true ∧
            r.user_id = s.id ∧ r.position = some p ∧ p ≠ 0) ∧
      get_batch_students rSt [rExam] rRanks 1 =
        .ok [entryOf rB (some 1), entryOf rA (some 3), entryOf rC none] :=
  get_batch_students_ranked rSt [rExam] rRanks 1 wBatch (by decide)

/-! ## C10: zero or null positions leave a student unranked -/

/-- **C10.**  A finalized ranking row whose `position` is `0` or null
contributes no entry to the rank map — deleting all such rows never changes
the listing — so the student is treated exactly like one with no ranking at
all: in the example, C's `position = 0` row (and a null-position row) leave
C unranked (`roll_number` and `current_rank` empty), listed after the ranked
students. -/
theorem zero_or_null_position_unranked :
    (∀ (st : DBState) (exams : List MonthlyExam)
        (rankings : List MonthlyRanking) (bid : Nat),
      get_batch_students st exams (rankings.filter posTruthy) bid =
        get_batch_students st exams rankings bid) ∧
    get_batch_students rSt [rExam]
        (rRanks ++ [⟨3, 500, 23, some 0, true⟩, ⟨4, 500, 23, none, true⟩]) 1 =
      .ok [entryOf rB (some 1), entryOf rA (some 3), entryOf rC none] := by
  constructor
  · intro st exams rankings bid
    unfold get_batch_students
    rcases hgb : getBatch st bid with _ | b
    · rfl
    · have hre : rosterEntries st exams (rankings.filter posTruthy) bid =
          rosterEntries st exams rankings bid := by
        unfold rosterEntries batchRankMap
        rcases hmre : most_recent_exam exams bid with _ | ex
        · rfl
        · simp only [rankMapOf_filter_posTruthy]
      rw [hre]
  · decide
